import Mathlib

/-!
# Verification of the session/auth lifecycle and cache-synchronization layer

Shallow embedding of the client-side session handling of the dashboard
frontend: the Token Store and API client (`src/lib/api.ts`), the session
query hook (`src/hooks/use-session.ts`), the dashboard layout's OAuth token
processing and invalid-session effects
(`src/components/dashboard/dashboard-layout.tsx`, third variant), the
repository mutation hooks (`src/hooks/use-repositories.ts`,
`src/hooks/use-gitlab-repositories.ts`), the GitLab selection flow
(`src/components/dashboard/gitlab-repository-selection.tsx`) and the
repositories page pagination (`src/components/dashboard/repositories-page.tsx`).
-/

namespace Falcode

/-! ## Token Store (`src/lib/api.ts`, lines 14-37)

`localStorage` is modelled as a single optional cell (only the key
`session_token` is ever used).  The `typeof window !== 'undefined'` guard is
the Boolean `browser`: in a non-browser context the storage cell is
untouched and reads return `null`. -/

/-- The storage cell holding the opaque session credential. -/
abbrev TokenStore := Option String

/-- Function `setSessionToken`: writes the token when a browser `window` exists,
otherwise a no-op. -/
def setSessionToken (browser : Bool) (token : String) (s : TokenStore) : TokenStore :=
  if browser then some token else s

/-- Function `getSessionToken`: reads the token when a browser `window` exists,
otherwise returns `null`. -/
def getSessionToken (browser : Bool) (s : TokenStore) : Option String :=
  if browser then s else none

/-- Function `clearSessionToken`: removes the token when a browser `window` exists,
otherwise a no-op. -/
def clearSessionToken (browser : Bool) (s : TokenStore) : TokenStore :=
  if browser then none else s

/-- A mutating Token Store operation (reads do not change the cell). -/
inductive TokenOp where
  | set (token : String)
  | clear
deriving DecidableEq, Repr

/-- Run a sequence of Token Store mutations left to right. -/
def runTokenOps (browser : Bool) (ops : List TokenOp) (s : TokenStore) : TokenStore :=
  ops.foldl (fun acc op =>
    match op with
    | .set t => setSessionToken browser t acc
    | .clear => clearSessionToken browser acc) s

/-! ## API client (`src/lib/api.ts`, lines 44-91)

Headers are JS-object key/value maps; object spread `{...a, ...b}` lets the
later object win on key collision.  `BACKEND_URL` comes from the
environment, so it is a parameter here. -/

/-- JS-object header map: association list, later writes modelled by
`mergeHeaders`. -/
abbrev HeaderMap := List (String × String)

/-- Lookup of a header key (JS object property read). -/
def lookupHeader (hs : HeaderMap) (k : String) : Option String :=
  (hs.find? (fun p => p.1 = k)).map (fun p => p.2)

/-- JS object spread `{...a, ...b}`: keys of `b` override keys of `a`,
non-conflicting keys of `a` survive. -/
def mergeHeaders (a b : HeaderMap) : HeaderMap :=
  a.filter (fun p => (lookupHeader b p.1).isNone) ++ b

/-- Naive substring search, embedding JS `String.prototype.includes`. -/
def charsStartWith : List Char → List Char → Bool
  | _, [] => true
  | [], _ :: _ => false
  | a :: as, b :: bs => a = b && charsStartWith as bs

/-- JS `s.includes(pat)` on strings. -/
def strIncludes (s pat : String) : Bool :=
  go s.toList pat.toList
where
  go : List Char → List Char → Bool
    | [], pat => charsStartWith [] pat
    | c :: rest, pat => charsStartWith (c :: rest) pat || go rest pat

/-- Function `getApiHeaders` (`src/lib/api.ts` lines 44-64): JSON content type, an
ngrok bypass header when the configured base URL contains `"ngrok"`, and a
bearer Authorization header when the Token Store holds a truthy token: the
source guards with `if (token)`, under which both `null` and the empty
string attach no header.  Reads the store through `getSessionToken` in a
browser context. -/
def getApiHeaders (backendUrl : String) (store : TokenStore) : HeaderMap :=
  let headers : HeaderMap := [("Content-Type", "application/json")]
  let headers :=
    if strIncludes backendUrl "ngrok" then
      headers ++ [("ngrok-skip-browser-warning", "true")]
    else headers
  match getSessionToken true store with
  | some token =>
    if token = "" then headers
    else headers ++ [("Authorization", "Bearer " ++ token)]
  | none => headers

/-- The `RequestInit` options accepted by `apiFetch`; `none` means the field
is absent from the caller's object literal. -/
structure RequestOptions where
  credentials : Option String
  headers : Option HeaderMap
  httpMethod : Option String
deriving Repr

/-- Options object with no fields, the default `{}` argument. -/
def RequestOptions.empty : RequestOptions :=
  { credentials := none, headers := none, httpMethod := none }

/-- The fully merged request handed to `fetch`. -/
structure FetchRequest where
  url : String
  credentials : Option String
  headers : HeaderMap
  httpMethod : Option String
deriving Repr

/-- Function `apiFetch` (`src/lib/api.ts` lines 69-91): builds
`{...defaultOptions, ...options, headers: {...defaults, ...options.headers}}`
and calls `fetch`.  A field present in `options` overrides the default
(object spread), and header maps are merged with caller priority. -/
def apiFetch (backendUrl : String) (store : TokenStore) (endpoint : String)
    (options : RequestOptions) : FetchRequest :=
  let defaultHeaders := getApiHeaders backendUrl store
  { url := backendUrl ++ endpoint
    credentials :=
      match options.credentials with
      | some c => some c
      | none => some "include"
    headers := mergeHeaders defaultHeaders (options.headers.getD [])
    httpMethod := options.httpMethod }

/-! ## Session hook (`src/hooks/use-session.ts`)

The zod schema `sessionDataSchema` and the `queryFn` of `useSession`.
JSON values are modelled by a small inductive; `fetch` outcomes are
`Option HttpResponse` where `none` is a thrown network error. -/

/-- JSON value, as produced by `response.json()`. -/
inductive Json where
  | null
  | bool (b : Bool)
  | num (n : Int)
  | str (s : String)
  | arr (xs : List Json)
  | obj (fields : List (String × Json))

/-- Property read on a JSON object (first binding wins). -/
def jsonLookup (fields : List (String × Json)) (k : String) : Option Json :=
  (fields.find? (fun p => p.1 = k)).map (fun p => p.2)

/-- Parsed result of the session schema: `valid` boolean plus the optional
user fields.  `email` is `z.string().nullable().optional()`, hence
`Option (Option String)`. -/
structure SessionData where
  valid : Bool
  user_id : Option Int
  login : Option String
  email : Option (Option String)
  vcs : Option String
deriving DecidableEq, Repr

/-- An optional field of a zod object: absent is fine, present values must
parse. -/
def parseOptionalField (parse : Json → Option α) (fields : List (String × Json))
    (k : String) : Option (Option α) :=
  match jsonLookup fields k with
  | none => some none
  | some v => (parse v).map some

/-- Schema `z.number()` on a field value. -/
def parseNum : Json → Option Int
  | .num n => some n
  | _ => none

/-- Schema `z.string()` on a field value. -/
def parseStr : Json → Option String
  | .str s => some s
  | _ => none

/-- Schema `z.string().nullable()` on a field value. -/
def parseNullableStr : Json → Option (Option String)
  | .null => some none
  | .str s => some (some s)
  | _ => none

/-- Validation `sessionDataSchema.safeParse` (`src/hooks/use-session.ts` lines 11-17):
requires an object with a boolean `valid`, optional numeric `user_id`,
optional string `login`, optional nullable string `email`, optional string
`vcs`; unknown keys are stripped. -/
def sessionDataSafeParse : Json → Option SessionData
  | .obj fields =>
    match jsonLookup fields "valid" with
    | some (.bool b) => do
      let uid ← parseOptionalField parseNum fields "user_id"
      let lo ← parseOptionalField parseStr fields "login"
      let em ← parseOptionalField parseNullableStr fields "email"
      let v ← parseOptionalField parseStr fields "vcs"
      pure { valid := b, user_id := uid, login := lo, email := em, vcs := v }
    | _ => none
  | _ => none

/-- An HTTP response as seen by the hook: `ok` flag, status, JSON body. -/
structure HttpResponse where
  ok : Bool
  status : Nat
  body : Json

/-- Hook `useSession`, its `queryFn` (`src/hooks/use-session.ts` lines 40-72), over
the stored token at call time and the fetch outcome (`none` = the fetch
promise rejected).  The guard is `if (!token) throw`, under which both
`null` and the empty string throw (JS truthiness).  Errors carry the thrown
message's fixed prefix. -/
def sessionQueryFn (storedToken : Option String) (outcome : Option HttpResponse) :
    Except String SessionData :=
  match storedToken with
  | none => .error "No session token available"
  | some t =>
    if t = "" then .error "No session token available"
    else
    match outcome with
    | none => .error "network error"
    | some resp =>
      if resp.ok then
        match sessionDataSafeParse resp.body with
        | some data => .ok data
        | none => .error "Invalid session data format"
      else
        .error "Session validation failed"

/-- The query options `useSession` hands to the cache layer
(`src/hooks/use-session.ts` lines 73-85).  `retry: false` is a retry budget
of zero. -/
structure SessionQueryConfig where
  queryKey : List String
  staleTimeMs : Nat
  gcTimeMs : Nat
  refetchOnWindowFocus : Bool
  refetchOnMount : Bool
  enabled : Bool
  retryBudget : Nat
deriving DecidableEq, Repr

/-- JS truthiness of the nullable token string (`!!getSessionToken()`,
`use-session.ts` line 36): `null` and the empty string are falsy. -/
def truthyToken : Option String → Bool
  | some t => !(t == "")
  | none => false

/-- The configuration built by `useSession(enabled)` in a browser context:
`hasToken` is the mount-time check `!!getSessionToken()` (JS truthiness,
so an empty stored string also disables), and the query is enabled only
when both the caller's flag and the token check hold. -/
def useSessionConfig (enabled : Bool) (store : TokenStore) : SessionQueryConfig :=
  { queryKey := ["session"]
    staleTimeMs := 2 * 60 * 1000
    gcTimeMs := 5 * 60 * 1000
    refetchOnWindowFocus := false
    refetchOnMount := false
    enabled := enabled && truthyToken (getSessionToken true store)
    retryBudget := 0 }

/-- Cache-layer contract (the query library is an external collaborator,
spec section 4.3 and 8): over any schedule of fetch opportunities (mount,
staleness expiry, invalidation, elapsed time), a query only ever invokes its
`queryFn` while its `enabled` flag is true; a disabled query issues no
request at all. -/
def queryFetchCount (cfg : SessionQueryConfig) (fetchOpportunities : List Bool) : Nat :=
  if cfg.enabled then (fetchOpportunities.filter id).length else 0

/-! ## Dashboard layout effects
(`src/components/dashboard/dashboard-layout.tsx`, third variant)

The OAuth token-processing effect and the invalid-session effect are
modelled as event traces, so that ordering (persist, strip URL, then enable
the resolver) is observable. -/

/-- An observable dashboard-layout side effect, in execution order. -/
inductive DashEv where
  | storeSet (token : String)
  | storeClear
  | urlReplace (query : List (String × String))
  | urlPush (query : List (String × String))
  | markProcessed
  | enableResolver
  | navigate (path : String)
deriving DecidableEq, Repr

/-- Read `searchParams.get(k)`: first value bound to `k`, if any. -/
def lookupParam (q : List (String × String)) (k : String) : Option String :=
  (q.find? (fun p => p.1 = k)).map (fun p => p.2)

/-- Deletion `url.searchParams.delete(k)`: drop every binding of `k`. -/
def removeParam (q : List (String × String)) (k : String) : List (String × String) :=
  q.filter (fun p => ¬ p.1 = k)

/-- The mount effect of the third `DashboardLayout` variant
(`dashboard-layout.tsx` lines 233-287) as an event trace, given the
backend's acceptance of a bearer token and the initial URL query.
The branch condition is `if (tokenFromUrl && ...)`, so a truthy (non-empty)
`session_token` parameter runs `validateAndStoreToken`: on HTTP success it
stores the token, strips the parameter with `history.replaceState`, marks
processing done and then enables the resolver; on failure it clears the
store and navigates to `/login`.  With no URL token — absent, or present
with an empty value, which JS truthiness sends down the `!tokenFromUrl`
branch — processing is marked done and the resolver enabled immediately. -/
def dashboardMountTrace (backendAccepts : String → Bool)
    (q : List (String × String)) : List DashEv :=
  match lookupParam q "session_token" with
  | some t =>
    if t = "" then [.markProcessed, .enableResolver]
    else if backendAccepts t then
      [.storeSet t, .urlReplace (removeParam q "session_token"),
       .markProcessed, .enableResolver]
    else
      [.storeClear, .navigate "/login"]
  | none => [.markProcessed, .enableResolver]

/-- Dashboard-layout state affected by the traced events. -/
structure DashState where
  store : TokenStore
  urlQuery : List (String × String)
  histReplaces : Nat
  histPushes : Nat
  navigations : List String
  tokenProcessed : Bool
  resolverEnabled : Bool
deriving Repr

/-- Apply one event to the dashboard state (browser context). -/
def applyDashEv (s : DashState) (e : DashEv) : DashState :=
  match e with
  | .storeSet t => { s with store := setSessionToken true t s.store }
  | .storeClear => { s with store := clearSessionToken true s.store }
  | .urlReplace q => { s with urlQuery := q, histReplaces := s.histReplaces + 1 }
  | .urlPush q => { s with urlQuery := q, histPushes := s.histPushes + 1 }
  | .markProcessed => { s with tokenProcessed := true }
  | .enableResolver => { s with resolverEnabled := true }
  | .navigate p => { s with navigations := s.navigations ++ [p] }

/-- Run a trace of dashboard events. -/
def runDashEvs (s : DashState) (evs : List DashEv) : DashState :=
  evs.foldl applyDashEv s

/-- Number of `navigate` events in a trace. -/
def countNavs : List DashEv → Nat
  | [] => 0
  | .navigate _ :: rest => countNavs rest + 1
  | _ :: rest => countNavs rest

/-- The condition under which the invalid-session effect
(`dashboard-layout.tsx` lines 304-314) fires its redirect branch: either a
query error after token processing, or token processing finished, loading
finished, and the session data is absent or not valid. -/
def invalidVerdictObserved (queryError : Bool) (tokenProcessed : Bool)
    (isLoading : Bool) (sessionData : Option SessionData) : Bool :=
  (queryError && tokenProcessed) ||
    (tokenProcessed && !isLoading &&
      !(match sessionData with | some d => d.valid | none => false))

/-- One firing of the invalid-session effect
(`dashboard-layout.tsx` lines 304-314): both branches clear the Token Store
and push `/login`; otherwise nothing happens.  There is no guard flag, so
every firing that observes an invalid verdict emits its own navigation. -/
def authErrorEffect (queryError : Bool) (tokenProcessed : Bool)
    (isLoading : Bool) (sessionData : Option SessionData) : List DashEv :=
  if queryError && tokenProcessed then
    [.storeClear, .navigate "/login"]
  else if tokenProcessed && !isLoading &&
      !(match sessionData with | some d => d.valid | none => false) then
    [.storeClear, .navigate "/login"]
  else []

/-! ## Repository mutations (`src/hooks/use-repositories.ts` lines 81-133,
`src/hooks/use-gitlab-repositories.ts` lines 102-128)

Each `useMutation` is modelled as: the `mutationFn` result for a given
fetch outcome, together with the cache-layer operations its lifecycle
performs (`onSuccess` invalidations; these hooks never call
`setQueryData`). -/

/-- Expression `errorData.detail || fallback`: JS falsy check, an empty string also
falls back. -/
def errorDetailOr (body : Json) (fallback : String) : String :=
  match body with
  | .obj fields =>
    match jsonLookup fields "detail" with
    | some (.str s) => if s = "" then fallback else s
    | _ => fallback
  | _ => fallback

/-- Outcome of running one mutation: the settled result, the query keys
invalidated, and the query keys written directly via `setQueryData`. -/
structure MutationOutcome where
  result : Except String Json
  invalidated : List (List String)
  cacheWrites : List (List String)

/-- Hook `useAddRepositories` (`use-repositories.ts` lines 81-106): POST
`/api/v1/repositories/add`; non-ok throws `detail` or a fixed message; on
success the `repositories` key is invalidated. -/
def addRepositoriesMutation (outcome : Option HttpResponse) : MutationOutcome :=
  match outcome with
  | none => { result := .error "network error", invalidated := [], cacheWrites := [] }
  | some resp =>
    if resp.ok then
      { result := .ok resp.body
        invalidated := [["repositories"]]
        cacheWrites := [] }
    else
      { result := .error (errorDetailOr resp.body "Failed to add repositories")
        invalidated := []
        cacheWrites := [] }

/-- Hook `useRemoveRepository` (`use-repositories.ts` lines 112-133): DELETE
`/api/v1/vcs-app/repositories/{id}`; non-ok throws; on success the
`repositories` key is invalidated. -/
def removeRepositoryMutation (outcome : Option HttpResponse) : MutationOutcome :=
  match outcome with
  | none => { result := .error "network error", invalidated := [], cacheWrites := [] }
  | some resp =>
    if resp.ok then
      { result := .ok resp.body
        invalidated := [["repositories"]]
        cacheWrites := [] }
    else
      { result := .error (errorDetailOr resp.body "Failed to remove repository")
        invalidated := []
        cacheWrites := [] }

/-- Hook `useSelectGitLabProjects` (`use-gitlab-repositories.ts` lines 102-128):
POST `/api/v1/vcs-app/gitlab/repositories/select`; non-ok throws; on
success both the `gitlab-projects` and `repositories` keys are
invalidated. -/
def selectGitLabProjectsMutation (outcome : Option HttpResponse) : MutationOutcome :=
  match outcome with
  | none => { result := .error "network error", invalidated := [], cacheWrites := [] }
  | some resp =>
    if resp.ok then
      { result := .ok resp.body
        invalidated := [["gitlab-projects"], ["repositories"]]
        cacheWrites := [] }
    else
      { result := .error (errorDetailOr resp.body "Failed to install projects")
        invalidated := []
        cacheWrites := [] }

/-! ## GitLab selection flow
(`src/components/dashboard/gitlab-repository-selection.tsx`) -/

/-- A GitLab project as fetched from the provider (identity fields only;
display fields are irrelevant to the claims). -/
structure GitLabProject where
  id : Int
  name : String
deriving DecidableEq, Repr

/-- An installed repository record as returned by `listInstalled()`
(`use-repositories.ts` `Repository`): provider-scoped numeric identity and
the VCS discriminator. -/
structure InstalledRepo where
  id : Int
  vcs_type : Option String
deriving DecidableEq, Repr

/-- Derivation `installedProjectIds` (`gitlab-repository-selection.tsx` lines 47-54):
numeric ids of the installed repositories whose `vcs_type` is `gitlab`. -/
def installedProjectIds (installed : List InstalledRepo) : List Int :=
  (installed.filter (fun r => r.vcs_type = some "gitlab")).map (fun r => r.id)

/-- Derivation `projects` (`gitlab-repository-selection.tsx` lines 56-58): provider
list minus the already-installed GitLab ids. -/
def availableProjects (allProjects : List GitLabProject)
    (installed : List InstalledRepo) : List GitLabProject :=
  allProjects.filter (fun p => ¬ p.id ∈ installedProjectIds installed)

/-- Handler `toggleSelectAll` (`gitlab-repository-selection.tsx` lines 89-104):
if every currently filtered project is selected and the filtered list is
non-empty, delete exactly the filtered ids from the selection; otherwise
add all filtered ids, preserving existing selections.  The JS `Set` is a
`Finset Int`. -/
def toggleSelectAll (selectedProjects : Finset Int)
    (filteredProjects : List GitLabProject) : Finset Int :=
  if filteredProjects.all (fun p => p.id ∈ selectedProjects)
      && decide (filteredProjects.length > 0) then
    filteredProjects.foldl (fun s p => s.erase p.id) selectedProjects
  else
    filteredProjects.foldl (fun s p => insert p.id s) selectedProjects

/-! ## Repositories page pagination
(`src/components/dashboard/repositories-page.tsx` lines 97, 193-198) -/

/-- Constant `ITEMS_PER_PAGE` (`repositories-page.tsx` line 97). -/
def ITEMS_PER_PAGE : Nat := 10

/-- Derivation `totalPages = Math.ceil(filtered.length / ITEMS_PER_PAGE)`
(`repositories-page.tsx` line 194), as ceiling division on naturals. -/
def totalPages (filtered : List α) : Nat :=
  (filtered.length + ITEMS_PER_PAGE - 1) / ITEMS_PER_PAGE

/-- Derivation `paginatedRepositories` (`repositories-page.tsx` lines 195-198):
`filtered.slice(start, start + ITEMS_PER_PAGE)` with
`start = (currentPage - 1) * ITEMS_PER_PAGE`, 1-based page index. -/
def paginatedRepositories (currentPage : Nat) (filtered : List α) : List α :=
  ((filtered.drop ((currentPage - 1) * ITEMS_PER_PAGE)).take ITEMS_PER_PAGE)

/-- The pagination controls clamp the page index
(`repositories-page.tsx` lines 745, 784): previous is `max(1, p - 1)`,
next is `min(totalPages, p + 1)`. -/
def prevPageIndex (p : Nat) : Nat := max 1 (p - 1)

/-- Next-page control: `min(totalPages, p + 1)`. -/
def nextPageIndex (total p : Nat) : Nat := min total (p + 1)

/-! ## Helper lemmas -/

/-- Lemma: `find?` commutes with a filter whose predicate is implied by the search
predicate (filtering preserves order and keeps every candidate match). -/
theorem find?_filter_of_imp (a : List α) (f q : α → Bool)
    (h : ∀ p, q p = true → f p = true) :
    (a.filter f).find? q = a.find? q := by
  rw [List.find?_filter]
  congr 1
  funext x
  rcases hq : q x with _ | _
  · simp [hq]
  · simp [hq, h x hq]

/-- Merged header lookup: the caller's map wins, the defaults survive
otherwise. -/
theorem lookupHeader_mergeHeaders (a b : HeaderMap) (k : String) :
    lookupHeader (mergeHeaders a b) k =
      (lookupHeader b k).or (lookupHeader a k) := by
  have happ : lookupHeader (mergeHeaders a b) k
      = Option.map (fun p => p.2)
          (((a.filter (fun p => (lookupHeader b p.1).isNone)).find?
              (fun p => decide (p.1 = k))).or
            (b.find? (fun p => decide (p.1 = k)))) := by
    show Option.map _ (List.find? _ (_ ++ _)) = _
    rw [List.find?_append]
  rcases hb : lookupHeader b k with _ | v
  · have hfb : b.find? (fun p => decide (p.1 = k)) = none := by
      have := hb
      unfold lookupHeader at this
      exact Option.map_eq_none'.mp this
    have hfilter : (a.filter (fun p => (lookupHeader b p.1).isNone)).find?
        (fun p => decide (p.1 = k)) = a.find? (fun p => decide (p.1 = k)) := by
      apply find?_filter_of_imp
      intro p hp
      have hk : p.1 = k := of_decide_eq_true hp
      rw [hk, hb]
      rfl
    rw [happ, hfb, hfilter]
    rcases hfa : a.find? (fun p => decide (p.1 = k)) with _ | p <;>
      simp [Option.or, lookupHeader, hfa]
  · have hfilter : (a.filter (fun p => (lookupHeader b p.1).isNone)).find?
        (fun p => decide (p.1 = k)) = none := by
      rw [List.find?_eq_none]
      intro p hp hdec
      have hmem := (List.mem_filter.mp hp).2
      have hk : p.1 = k := of_decide_eq_true hdec
      rw [hk, hb] at hmem
      simp at hmem
    rw [happ, hfilter]
    have : Option.map (fun p : String × String => p.2)
        (b.find? (fun p => decide (p.1 = k))) = some v := hb
    rcases hfb : b.find? (fun p => decide (p.1 = k)) with _ | p
    · rw [hfb] at this; simp at this
    · rw [hfb] at this
      rw [hfb]
      simpa [Option.or] using this

/-- Deleting a query parameter makes subsequent reads of it miss. -/
theorem lookupParam_removeParam (q : List (String × String)) (k : String) :
    lookupParam (removeParam q k) k = none := by
  unfold lookupParam removeParam
  rw [List.find?_eq_none.mpr]
  · rfl
  · intro p hp
    have := (List.mem_filter.mp hp).2
    simpa using this

/-- Lemma: `countNavs` is additive under concatenation. -/
theorem countNavs_append (xs ys : List DashEv) :
    countNavs (xs ++ ys) = countNavs xs + countNavs ys := by
  induction xs with
  | nil => simp [countNavs]
  | cons e rest ih =>
    cases e <;> (simp [countNavs, ih]; try omega)

/-- Folding `insert` of the ids over a list is union with the id set
(JS `Set.prototype.add` in a `forEach`). -/
theorem foldl_insert_ids (s : Finset Int) (l : List GitLabProject) :
    l.foldl (fun acc p => insert p.id acc) s
      = s ∪ (l.map (fun p => p.id)).toFinset := by
  induction l generalizing s with
  | nil => simp
  | cons a t ih =>
    simp only [List.foldl_cons, ih, List.map_cons, List.toFinset_cons]
    ext x
    simp only [Finset.mem_union, Finset.mem_insert, List.mem_toFinset]
    tauto

/-- Folding `erase` of the ids over a list is set difference with the id
set (JS `Set.prototype.delete` in a `forEach`). -/
theorem foldl_erase_ids (s : Finset Int) (l : List GitLabProject) :
    l.foldl (fun acc p => acc.erase p.id) s
      = s \ (l.map (fun p => p.id)).toFinset := by
  induction l generalizing s with
  | nil => simp
  | cons a t ih =>
    simp only [List.foldl_cons, ih, List.map_cons, List.toFinset_cons]
    ext x
    simp only [Finset.mem_sdiff, Finset.mem_erase, Finset.mem_insert,
      List.mem_toFinset]
    tauto

/-! ## Claim theorems -/

/-- C5: For every sequence of Token Store operations executed in a browser
context, `getSessionToken` returns `none` after `clearSessionToken`, and
returns `x` after `setSessionToken x` until the next set or clear; in a
non-browser context `get` returns `none` and set/clear are no-ops. -/
theorem tokenStore_contract (browser : Bool) (ops : List TokenOp)
    (s : TokenStore) (x : String) :
    getSessionToken browser (clearSessionToken browser s) = none
    ∧ getSessionToken true (setSessionToken true x s) = some x
    ∧ getSessionToken true (runTokenOps true (ops ++ [TokenOp.set x]) s) = some x
    ∧ getSessionToken true (runTokenOps true (ops ++ [TokenOp.clear]) s) = none
    ∧ getSessionToken false s = none
    ∧ setSessionToken false x s = s
    ∧ clearSessionToken false s = s := by
  refine ⟨?_, ?_, ?_, ?_, ?_, ?_, ?_⟩ <;>
    cases browser <;>
      simp [getSessionToken, setSessionToken, clearSessionToken, runTokenOps,
        List.foldl_append]

/-- C4: If the Session Resolver is disabled or the Token Store holds no
credential at mount time, the query is disabled and no validation request
is ever issued, whatever fetch opportunities the cache layer sees. -/
theorem useSession_disabled_never_fetches (enabled : Bool) (store : TokenStore)
    (fetchOpportunities : List Bool)
    (h : enabled = false ∨ getSessionToken true store = none) :
    queryFetchCount (useSessionConfig enabled store) fetchOpportunities = 0 := by
  have hoff : (useSessionConfig enabled store).enabled = false := by
    rcases h with h | h <;> simp [useSessionConfig, truthyToken, h]
  simp [queryFetchCount, hoff]

/-- Witness for C4 at a concrete disabled mount. -/
theorem useSession_disabled_never_fetches_witness :
    queryFetchCount (useSessionConfig false (some "tok")) [true, true, true] = 0 :=
  useSession_disabled_never_fetches false (some "tok") [true, true, true] (Or.inl rfl)

/-- C9: Pagination is a pure derivation with page size 10: `totalPages` is
the least number of pages covering the collection (ceiling of length / 10),
page `p` holds exactly the items at indices `(p-1)*10` onward, at most 10 of
them; a 23-item collection has 3 pages and page 3 holds exactly 3 items; the
page-navigation controls clamp the page index to `[1, totalPages]`. -/
theorem pagination_pure_derivation (filtered : List α) (p : Nat) (hp : 1 ≤ p) :
    (filtered.length ≤ ITEMS_PER_PAGE * totalPages filtered
      ∧ ∀ q, filtered.length ≤ ITEMS_PER_PAGE * q → totalPages filtered ≤ q)
    ∧ (paginatedRepositories p filtered).length
        = min ITEMS_PER_PAGE (filtered.length - (p - 1) * ITEMS_PER_PAGE)
    ∧ (∀ i, i < ITEMS_PER_PAGE →
        (paginatedRepositories p filtered)[i]?
          = filtered[(p - 1) * ITEMS_PER_PAGE + i]?)
    ∧ (filtered.length = 23 → totalPages filtered = 3
        ∧ (paginatedRepositories 3 filtered).length = 3)
    ∧ (1 ≤ prevPageIndex p
        ∧ nextPageIndex (totalPages filtered) p ≤ totalPages filtered) := by
  have hp1 : 1 ≤ p := hp
  refine ⟨⟨?_, ?_⟩, ?_, ?_, ?_, ?_, ?_⟩
  · simp only [totalPages, ITEMS_PER_PAGE]
    omega
  · intro q hq
    simp only [totalPages, ITEMS_PER_PAGE] at *
    omega
  · simp [paginatedRepositories, ITEMS_PER_PAGE]
  · intro i hi
    simp only [paginatedRepositories]
    rw [List.getElem?_take_of_lt (by simpa [ITEMS_PER_PAGE] using hi),
      List.getElem?_drop]
  · intro h23
    constructor
    · simp [totalPages, ITEMS_PER_PAGE, h23]
    · simp [paginatedRepositories, ITEMS_PER_PAGE, h23]
  · simp [prevPageIndex]
  · simp [nextPageIndex]

/-- Witness for C9 on a concrete 23-item collection. -/
theorem pagination_pure_derivation_witness :
    totalPages (List.range 23) = 3
    ∧ (paginatedRepositories 3 (List.range 23)).length = 3 :=
  (pagination_pure_derivation (List.range 23) 3 (by norm_num)).2.2.2.1 (by simp)

/-- C8: The GitLab selection flow's displayed available list is the
provider list minus the projects whose numeric id appears among installed
repositories with `vcs_type = "gitlab"`; installed `{A, B}` against
available `{A, B, C}` leaves exactly `{C}`. -/
theorem gitlab_available_is_set_difference :
    (∀ (allProjects : List GitLabProject) (installed : List InstalledRepo)
        (p : GitLabProject),
      p ∈ availableProjects allProjects installed ↔
        p ∈ allProjects ∧
          ¬ ∃ r ∈ installed, r.vcs_type = some "gitlab" ∧ r.id = p.id)
    ∧ availableProjects
        [⟨1, "A"⟩, ⟨2, "B"⟩, ⟨3, "C"⟩]
        [⟨1, some "gitlab"⟩, ⟨2, some "gitlab"⟩] = [⟨3, "C"⟩] := by
  constructor
  · intro allProjects installed p
    simp only [availableProjects, installedProjectIds, List.mem_filter,
      List.mem_map, decide_not, Bool.not_eq_true', decide_eq_false_iff_not]
    constructor
    · rintro ⟨hmem, hnot⟩
      refine ⟨hmem, ?_⟩
      rintro ⟨r, hr, hvcs, hid⟩
      exact hnot ⟨r, ⟨hr, by simp [hvcs]⟩, hid⟩
    · rintro ⟨hmem, hnot⟩
      refine ⟨hmem, ?_⟩
      rintro ⟨r, ⟨hr, hvcs⟩, hid⟩
      exact hnot ⟨r, hr, by simpa using hvcs, hid⟩
  · decide

/-- C3: The session `queryFn` resolves to a parsed verdict exactly when a
truthy credential is present at call time (JS `if (!token) throw`: a
missing or empty stored token throws), the fetch did not throw, the
response is HTTP-success, and the body passes the shape schema; and the
query's retry budget is zero (`retry: false`). -/
theorem sessionQueryFn_valid_iff :
    (∀ (storedToken : Option String) (outcome : Option HttpResponse)
        (d : SessionData),
      sessionQueryFn storedToken outcome = .ok d ↔
        (∃ t, storedToken = some t ∧ t ≠ "")
        ∧ ∃ resp, outcome = some resp ∧ resp.ok = true ∧
          sessionDataSafeParse resp.body = some d)
    ∧ ∀ (enabled : Bool) (store : TokenStore),
        (useSessionConfig enabled store).retryBudget = 0 := by
  constructor
  · intro storedToken outcome d
    cases storedToken with
    | none => simp [sessionQueryFn]
    | some t =>
      by_cases ht : t = ""
      · subst ht
        simp [sessionQueryFn]
      · cases outcome with
        | none => simp [sessionQueryFn, ht]
        | some resp =>
          rcases hok : resp.ok with _ | _
          · simp [sessionQueryFn, ht, hok]
          · have heval : sessionQueryFn (some t) (some resp) =
                (match sessionDataSafeParse resp.body with
                 | some data => .ok data
                 | none => .error "Invalid session data format") := by
              simp [sessionQueryFn, ht, hok]
            rcases hp : sessionDataSafeParse resp.body with _ | d2
            · rw [heval, hp]
              simp [hp, ht]
            · rw [heval, hp]
              simp [hok, hp, ht]
  · intro enabled store
    rfl

/-- C7: Each of the add, remove, and select mutations invalidates the
`repositories` cache key exactly on HTTP success; on failure the mutation
settles with an error, invalidates nothing, and never writes the cache
directly. -/
theorem mutations_invalidate_iff_success (outcome : Option HttpResponse) :
    ((["repositories"] ∈ (addRepositoriesMutation outcome).invalidated ↔
        ∃ r, outcome = some r ∧ r.ok = true)
      ∧ (∀ r, outcome = some r → r.ok = false →
          (addRepositoriesMutation outcome).invalidated = []
          ∧ ∃ msg, (addRepositoriesMutation outcome).result = .error msg)
      ∧ (addRepositoriesMutation outcome).cacheWrites = [])
    ∧ ((["repositories"] ∈ (removeRepositoryMutation outcome).invalidated ↔
        ∃ r, outcome = some r ∧ r.ok = true)
      ∧ (∀ r, outcome = some r → r.ok = false →
          (removeRepositoryMutation outcome).invalidated = []
          ∧ ∃ msg, (removeRepositoryMutation outcome).result = .error msg)
      ∧ (removeRepositoryMutation outcome).cacheWrites = [])
    ∧ ((["repositories"] ∈ (selectGitLabProjectsMutation outcome).invalidated ↔
        ∃ r, outcome = some r ∧ r.ok = true)
      ∧ (∀ r, outcome = some r → r.ok = false →
          (selectGitLabProjectsMutation outcome).invalidated = []
          ∧ ∃ msg, (selectGitLabProjectsMutation outcome).result = .error msg)
      ∧ (selectGitLabProjectsMutation outcome).cacheWrites = []) := by
  cases outcome with
  | none =>
    simp [addRepositoriesMutation, removeRepositoryMutation,
      selectGitLabProjectsMutation]
  | some resp =>
    rcases hok : resp.ok with _ | _ <;>
      simp [addRepositoriesMutation, removeRepositoryMutation,
        selectGitLabProjectsMutation, hok]

/-- Witness for C7: a failed add mutation invalidates nothing. -/
theorem mutations_invalidate_iff_success_witness :
    (addRepositoriesMutation (some ⟨false, 500, Json.null⟩)).invalidated = [] :=
  ((mutations_invalidate_iff_success (some ⟨false, 500, Json.null⟩)).1.2.1
    ⟨false, 500, Json.null⟩ rfl rfl).1

/-- C10: `toggleSelectAll` acts only on the filtered list: with some
filtered project unselected (or an empty filter) the new selection is the
union with the filtered ids, with every filtered project selected and a
non-empty filter it is the set difference; ids outside the filter are
always preserved. -/
theorem toggleSelectAll_spec (S : Finset Int) (F : List GitLabProject) :
    ((∃ p ∈ F, p.id ∉ S) ∨ F = [] →
        toggleSelectAll S F = S ∪ (F.map (fun p => p.id)).toFinset)
    ∧ ((∀ p ∈ F, p.id ∈ S) → F ≠ [] →
        toggleSelectAll S F = S \ (F.map (fun p => p.id)).toFinset)
    ∧ ∀ x, x ∉ (F.map (fun p => p.id)).toFinset →
        (x ∈ toggleSelectAll S F ↔ x ∈ S) := by
  refine ⟨?_, ?_, ?_⟩
  · intro h
    unfold toggleSelectAll
    rcases h with ⟨p, hp, hnot⟩ | hF
    · rw [if_neg, foldl_insert_ids]
      intro hcond
      have hall := (Bool.and_eq_true_iff.mp hcond).1
      rw [List.all_eq_true] at hall
      exact hnot (by simpa using hall p hp)
    · subst hF
      rw [if_neg (by simp)]
      simp
  · intro hall hne
    unfold toggleSelectAll
    rw [if_pos, foldl_erase_ids]
    refine Bool.and_eq_true_iff.mpr ⟨?_, ?_⟩
    · rw [List.all_eq_true]
      intro p hp
      simpa using hall p hp
    · simp [List.length_pos, hne]
  · intro x hx
    unfold toggleSelectAll
    split
    · rw [foldl_erase_ids]
      simp only [Finset.mem_sdiff]
      constructor
      · exact fun h => h.1
      · exact fun h => ⟨h, hx⟩
    · rw [foldl_insert_ids]
      simp only [Finset.mem_union]
      constructor
      · intro h
        rcases h with h | h
        · exact h
        · exact absurd h hx
      · exact fun h => Or.inl h

/-- Witness for C10 at a concrete unselected filtered project. -/
theorem toggleSelectAll_spec_witness :
    toggleSelectAll ({5} : Finset Int) [⟨1, "A"⟩]
      = ({5} : Finset Int) ∪ (([⟨1, "A"⟩] : List GitLabProject).map
          (fun p => p.id)).toFinset :=
  (toggleSelectAll_spec {5} [⟨1, "A"⟩]).1 (Or.inl ⟨⟨1, "A"⟩, by simp, by decide⟩)

/-- C6 counterexample: a caller-supplied `credentials` option overrides the
default through the object spread, so this request does not carry
`credentials: 'include'`. -/
theorem apiFetch_credentials_override_counterexample :
    (apiFetch "http://localhost:8000" none "/api/v1/repositories/"
        { credentials := some "omit", headers := none,
          httpMethod := none }).credentials ≠ some "include" := by
  decide

/-- C6 (amended): default headers carry exactly the JSON content type, the
ngrok bypass header iff the configured base URL contains "ngrok", and a
bearer Authorization iff the Token Store holds a non-empty token (JS
truthiness: an empty stored string attaches no header, and a missing token
never causes a throw); the caller's headers win on conflict while
non-conflicting defaults survive, and `credentials` is `'include'`
whenever the caller does not supply a credentials option. -/
theorem apiFetch_request_shape (backendUrl : String) (store : TokenStore)
    (endpoint : String) (options : RequestOptions) :
    ((apiFetch backendUrl store endpoint options).url = backendUrl ++ endpoint)
    ∧ (options.credentials = none →
        (apiFetch backendUrl store endpoint options).credentials = some "include")
    ∧ lookupHeader (getApiHeaders backendUrl store) "Content-Type"
        = some "application/json"
    ∧ (lookupHeader (getApiHeaders backendUrl store) "ngrok-skip-browser-warning"
        = some "true" ↔ strIncludes backendUrl "ngrok" = true)
    ∧ (∀ t, store = some t → t ≠ "" →
        lookupHeader (getApiHeaders backendUrl store) "Authorization"
          = some ("Bearer " ++ t))
    ∧ (store = none →
        lookupHeader (getApiHeaders backendUrl store) "Authorization" = none)
    ∧ (store = some "" →
        lookupHeader (getApiHeaders backendUrl store) "Authorization" = none)
    ∧ (∀ k v, lookupHeader (options.headers.getD []) k = some v →
        lookupHeader (apiFetch backendUrl store endpoint options).headers k
          = some v)
    ∧ (∀ k, lookupHeader (options.headers.getD []) k = none →
        lookupHeader (apiFetch backendUrl store endpoint options).headers k
          = lookupHeader (getApiHeaders backendUrl store) k) := by
  refine ⟨rfl, ?_, ?_, ?_, ?_, ?_, ?_, ?_, ?_⟩
  · intro h
    simp [apiFetch, h]
  · rcases store with _ | t
    · rcases hng : strIncludes backendUrl "ngrok" with _ | _ <;>
        simp [getApiHeaders, getSessionToken, lookupHeader, hng]
    · by_cases ht : t = "" <;>
        rcases hng : strIncludes backendUrl "ngrok" with _ | _ <;>
          simp [getApiHeaders, getSessionToken, lookupHeader, hng, ht]
  · rcases store with _ | t
    · rcases hng : strIncludes backendUrl "ngrok" with _ | _ <;>
        simp [getApiHeaders, getSessionToken, lookupHeader, hng]
    · by_cases ht : t = "" <;>
        rcases hng : strIncludes backendUrl "ngrok" with _ | _ <;>
          simp [getApiHeaders, getSessionToken, lookupHeader, hng, ht]
  · intro t ht hne
    subst ht
    rcases hng : strIncludes backendUrl "ngrok" with _ | _ <;>
      simp [getApiHeaders, getSessionToken, lookupHeader, hng, hne]
  · intro hst
    subst hst
    rcases hng : strIncludes backendUrl "ngrok" with _ | _ <;>
      simp [getApiHeaders, getSessionToken, lookupHeader, hng]
  · intro hst
    subst hst
    rcases hng : strIncludes backendUrl "ngrok" with _ | _ <;>
      simp [getApiHeaders, getSessionToken, lookupHeader, hng]
  · intro k v h
    show lookupHeader (mergeHeaders _ _) k = some v
    rw [lookupHeader_mergeHeaders, h]
    rfl
  · intro k h
    show lookupHeader (mergeHeaders _ _) k = _
    rw [lookupHeader_mergeHeaders, h]
    rfl

/-- Witness for C6 (amended): with no caller-supplied credentials the
request carries `credentials: 'include'`. -/
theorem apiFetch_request_shape_witness :
    (apiFetch "http://localhost:8000" none "/x" RequestOptions.empty).credentials
      = some "include" :=
  (apiFetch_request_shape "http://localhost:8000" none "/x"
    RequestOptions.empty).2.1 rfl

/-- C1 counterexample: with an empty-valued `session_token` parameter and a
backend that accepts every token, JS truthiness sends the layout down the
no-token branch: the trace only marks processing done and enables the
resolver, the store is not written, the URL keeps the parameter, and no
history entry is replaced — against the claim's promised store write and
URL strip. -/
theorem dashboard_empty_token_counterexample :
    dashboardMountTrace (fun _ => true) [("session_token", "")]
      = [DashEv.markProcessed, DashEv.enableResolver]
    ∧ (runDashEvs ⟨none, [("session_token", "")], 0, 0, [], false, false⟩
        (dashboardMountTrace (fun _ => true) [("session_token", "")])).store
      ≠ some ""
    ∧ lookupParam (runDashEvs ⟨none, [("session_token", "")], 0, 0, [], false, false⟩
          (dashboardMountTrace (fun _ => true) [("session_token", "")])).urlQuery
        "session_token" = some ""
    ∧ (runDashEvs ⟨none, [("session_token", "")], 0, 0, [], false, false⟩
        (dashboardMountTrace (fun _ => true) [("session_token", "")])).histReplaces
      = 0 := by
  decide

/-- C1 (amended): If the layout mounts with a non-empty `session_token=T`
in the URL (JS truthiness: an empty-valued parameter takes the no-token
path) and the backend accepts `T`, then after the mount effect the Token
Store holds `T`, the URL no longer carries the parameter, the history entry
was replaced (never pushed), the resolver ends up enabled, and every
`enableResolver` event is preceded by both the store write and the URL
strip. -/
theorem dashboard_url_token_success (backendAccepts : String → Bool)
    (q : List (String × String)) (st : TokenStore) (t : String)
    (hfind : lookupParam q "session_token" = some t)
    (hne : t ≠ "")
    (hacc : backendAccepts t = true) :
    (runDashEvs ⟨st, q, 0, 0, [], false, false⟩
        (dashboardMountTrace backendAccepts q)).store = some t
    ∧ lookupParam (runDashEvs ⟨st, q, 0, 0, [], false, false⟩
        (dashboardMountTrace backendAccepts q)).urlQuery "session_token" = none
    ∧ (runDashEvs ⟨st, q, 0, 0, [], false, false⟩
        (dashboardMountTrace backendAccepts q)).histReplaces = 1
    ∧ (runDashEvs ⟨st, q, 0, 0, [], false, false⟩
        (dashboardMountTrace backendAccepts q)).histPushes = 0
    ∧ (runDashEvs ⟨st, q, 0, 0, [], false, false⟩
        (dashboardMountTrace backendAccepts q)).resolverEnabled = true
    ∧ ∀ k : Nat,
        (dashboardMountTrace backendAccepts q)[k]? = some DashEv.enableResolver →
        (∃ i : Nat, i < k ∧ (dashboardMountTrace backendAccepts q)[i]?
            = some (DashEv.storeSet t))
        ∧ ∃ j : Nat, j < k ∧ ∃ q2 : List (String × String),
            (dashboardMountTrace backendAccepts q)[j]? = some (DashEv.urlReplace q2)
            ∧ lookupParam q2 "session_token" = none := by
  have htr : dashboardMountTrace backendAccepts q
      = [DashEv.storeSet t, DashEv.urlReplace (removeParam q "session_token"),
         DashEv.markProcessed, DashEv.enableResolver] := by
    simp [dashboardMountTrace, hfind, hne, hacc]
  rw [htr]
  refine ⟨?_, ?_, ?_, ?_, ?_, ?_⟩
  · simp [runDashEvs, applyDashEv, setSessionToken]
  · simp [runDashEvs, applyDashEv, setSessionToken, lookupParam_removeParam]
  · simp [runDashEvs, applyDashEv]
  · simp [runDashEvs, applyDashEv]
  · simp [runDashEvs, applyDashEv]
  · intro k hk
    have hk4 : k < 4 := by
      by_contra hge
      push_neg at hge
      rw [List.getElem?_eq_none (by simpa using hge)] at hk
      exact Option.noConfusion hk
    interval_cases k
    · simp at hk
    · simp at hk
    · simp at hk
    · exact ⟨⟨0, by norm_num, by simp⟩,
        ⟨1, by norm_num, removeParam q "session_token", by simp,
          lookupParam_removeParam q "session_token"⟩⟩

/-- Witness for C1 (amended) at a concrete non-empty accepted URL token. -/
theorem dashboard_url_token_success_witness :
    (runDashEvs ⟨none, [("session_token", "tok")], 0, 0, [], false, false⟩
        (dashboardMountTrace (fun s => s == "tok")
          [("session_token", "tok")])).store = some "tok" :=
  (dashboard_url_token_success (fun s => s == "tok") [("session_token", "tok")]
    none "tok" (by decide) (by decide) (by decide)).1

/-- C2 counterexample: two effect firings observing the same invalid
verdict each issue their own `/login` navigation, so navigation is not
limited to once per invalid verdict. -/
theorem invalid_redirect_not_once_counterexample :
    invalidVerdictObserved true true false none = true
    ∧ countNavs (authErrorEffect true true false none
        ++ authErrorEffect true true false none) = 2
    ∧ ¬ countNavs (authErrorEffect true true false none
        ++ authErrorEffect true true false none) ≤ 1 := by
  decide

/-- C2 (amended): every firing of the invalid-session effect that observes
an invalid verdict clears the Token Store and navigates to `/login`; there
is no redirect-in-progress guard, so `n` firings observing the same invalid
verdict produce exactly `n` navigations (at least one, not at most one). -/
theorem authErrorEffect_navigations (queryError tokenProcessed isLoading : Bool)
    (sessionData : Option SessionData)
    (h : invalidVerdictObserved queryError tokenProcessed isLoading sessionData
      = true) (n : Nat) :
    authErrorEffect queryError tokenProcessed isLoading sessionData
      = [DashEv.storeClear, DashEv.navigate "/login"]
    ∧ countNavs (List.flatten (List.replicate n
        (authErrorEffect queryError tokenProcessed isLoading sessionData)))
      = n := by
  have heff : authErrorEffect queryError tokenProcessed isLoading sessionData
      = [DashEv.storeClear, DashEv.navigate "/login"] := by
    unfold invalidVerdictObserved at h
    unfold authErrorEffect
    rcases h1 : (queryError && tokenProcessed) with _ | _
    · rw [h1] at h
      simp only [Bool.false_or] at h
      simp [h]
    · simp
  refine ⟨heff, ?_⟩
  induction n with
  | zero => simp [countNavs]
  | succ m ih =>
    rw [List.replicate_succ, List.flatten_cons, countNavs_append, ih, heff]
    simp [countNavs, Nat.add_comm]

/-- Witness for C2 (amended) at three concrete firings. -/
theorem authErrorEffect_navigations_witness :
    countNavs (List.flatten (List.replicate 3
        (authErrorEffect true true false none))) = 3 :=
  (authErrorEffect_navigations true true false none (by decide) 3).2

end Falcode
